import Mathlib

/-!
Shallow embedding of the MedSpaSync transaction match scorer
(`medspasync-ai-api-main/app.py`): the fuzzy string-similarity primitive
(`SimpleFuzzyMatcher.ratio`), the date parser (`parse_date`), the feature
engineering step (`engineer_features`), the scorer (`predict_match`) and the
batch endpoint loop (`batch_predict`).  Python strings are Lean `String`s,
Python floats are exact rationals `ℚ`, dictionary fields that may be absent
are `Option`s, and raised exceptions are modelled with `Except`.
-/

namespace MedSpa

/-! ### Python string primitives -/

/-- A whitespace character, as used by Python `str.strip` / `str.split()`. -/
def isSp (c : Char) : Bool := c.isWhitespace

/-- ASCII lower-casing of one character, as in Python `str.lower`. -/
def lowChar (c : Char) : Char :=
  if 'A' ≤ c ∧ c ≤ 'Z' then Char.ofNat (c.toNat + 32) else c

/-- Python `str.lower`. -/
def pyLower (s : String) : String := String.mk (s.data.map lowChar)

/-- Strip whitespace from both ends of a character list. -/
def stripChars (l : List Char) : List Char :=
  ((l.dropWhile isSp).reverse.dropWhile isSp).reverse

/-- Python `str.strip()`. -/
def pyStrip (s : String) : String := String.mk (stripChars s.data)

/-- `str(s).lower().strip()`, the normalisation applied by `ratio`. -/
def normStr (s : String) : String := pyStrip (pyLower s)

/-- Helper for `splitWs`: accumulates the current token (reversed). -/
def splitWsAux : List Char → List Char → List (List Char)
  | [], acc => if acc = [] then [] else [acc.reverse]
  | c :: cs, acc =>
      if isSp c then
        (if acc = [] then splitWsAux cs [] else acc.reverse :: splitWsAux cs [])
      else splitWsAux cs (c :: acc)

/-- Python `str.split()` (no separator): split on whitespace runs, no empty
tokens. -/
def wsTokens (s : String) : List String := (splitWsAux s.data []).map String.mk

/-- The set of whitespace-separated tokens, as Python `set(s.split())`. -/
def tokenSet (s : String) : Finset String := (wsTokens s).toFinset

/-- Helper for `pySplitOn`. -/
def splitOnCharAux (sep : Char) : List Char → List Char → List String
  | [], acc => [String.mk acc.reverse]
  | c :: cs, acc =>
      if c = sep then String.mk acc.reverse :: splitOnCharAux sep cs []
      else splitOnCharAux sep cs (c :: acc)

/-- Python `str.split(sep)` for a one-character separator (keeps empty parts). -/
def pySplitOn (sep : Char) (s : String) : List String := splitOnCharAux sep s.data []

/-- Boolean list-prefix test on characters. -/
def isPrefChars : List Char → List Char → Bool
  | [], _ => true
  | _ :: _, [] => false
  | a :: as, b :: bs => a = b && isPrefChars as bs

/-- Boolean contiguous-substring test on characters. -/
def isSubChars (n : List Char) : List Char → Bool
  | [] => n.isEmpty
  | c :: rest => isPrefChars n (c :: rest) || isSubChars n rest

/-- Python `n in h` for strings (substring containment). -/
def substrOf (n h : String) : Bool := isSubChars n.data h.data

/-- Python `c in s` for a single character. -/
def containsChar (s : String) (c : Char) : Bool := s.data.contains c

/-- `sum(1 for c in a if c in b)`: characters of `a` (with multiplicity)
appearing anywhere in `b`. -/
def charCommon (a b : String) : ℕ :=
  (a.data.filter (fun c => b.data.contains c)).length

/-! ### `SimpleFuzzyMatcher.ratio` -/

/-- Token-set Jaccard similarity `intersection / union` of the two token
sets. -/
def tokJaccard (t1 t2 : String) : ℚ :=
  ((tokenSet t1 ∩ tokenSet t2).card : ℚ) / ((tokenSet t1 ∪ tokenSet t2).card : ℚ)

/-- Jaccard similarity with the flat `+0.3` substring bonus
(`if s1 in s2 or s2 in s1`). -/
def jaccardWithBonus (t1 t2 : String) : ℚ :=
  if substrOf t1 t2 || substrOf t2 t1 then tokJaccard t1 t2 + 3/10
  else tokJaccard t1 t2

/-- Character-overlap ratio `common_chars / max(len(s1), len(s2))`. -/
def charOverlap (t1 t2 : String) : ℚ :=
  (charCommon t1 t2 : ℚ) / (max t1.length t2.length : ℚ)

/-- `SimpleFuzzyMatcher.ratio`: emptiness check on the raw inputs, then
normalisation, the exact-match shortcut, and
`int(min(100, (jaccard*0.6 + char_similarity*0.4) * 100))`
(Python `int` truncates; the score is nonnegative, so this is a floor). -/
def ratio (s1 s2 : String) : ℕ :=
  if s1 = "" ∨ s2 = "" then 0
  else if normStr s1 = normStr s2 then 100
  else if (tokenSet (normStr s1) ∪ tokenSet (normStr s2)).card = 0 then 0
  else
    (⌊min 100 ((jaccardWithBonus (normStr s1) (normStr s2) * (6/10) +
        charOverlap (normStr s1) (normStr s2) * (4/10)) * 100)⌋).toNat

/-! ### Dates (`datetime`) -/

/-- A naive `datetime.datetime` value. -/
structure DateTime where
  year : ℕ
  month : ℕ
  day : ℕ
  hour : ℕ
  minute : ℕ
  second : ℕ
deriving DecidableEq

/-- Gregorian leap year. -/
def isLeap (y : ℕ) : Bool := (y % 4 = 0 ∧ y % 100 ≠ 0) ∨ y % 400 = 0

/-- Days in a month of a given year. -/
def daysInMonth (y m : ℕ) : ℕ :=
  if m = 2 then (if isLeap y then 29 else 28)
  else if m = 4 ∨ m = 6 ∨ m = 9 ∨ m = 11 then 30
  else 31

/-- Days in the months strictly before month `m` of year `y`. -/
def daysBeforeMonth (y m : ℕ) : ℕ :=
  (List.range (m - 1)).foldl (fun a i => a + daysInMonth y (i + 1)) 0

/-- Day count since 0001-01-01 (proleptic Gregorian, as `datetime`). -/
def rataDie (y m d : ℕ) : ℕ :=
  365 * (y - 1) + (y - 1) / 4 - (y - 1) / 100 + (y - 1) / 400 +
    daysBeforeMonth y m + (d - 1)

/-- Seconds since 0001-01-01 00:00:00; `datetime` subtraction is the
difference of these. -/
def toSecs (t : DateTime) : ℤ :=
  (rataDie t.year t.month t.day : ℤ) * 86400 +
    t.hour * 3600 + t.minute * 60 + t.second

/-- `abs((a - b).total_seconds() / 3600)`. -/
def hoursDiff (a b : DateTime) : ℚ := ((toSecs a - toSecs b).natAbs : ℚ) / 3600

/-- Valid calendar date (as `datetime` range checks; year ≥ 1). -/
def validDate (y m d : ℕ) : Bool :=
  1 ≤ y ∧ 1 ≤ m ∧ m ≤ 12 ∧ 1 ≤ d ∧ d ≤ daysInMonth y m

/-- Valid time of day. -/
def validTime (h mi s : ℕ) : Bool := h ≤ 23 ∧ mi ≤ 59 ∧ s ≤ 59

/-! ### `MedSpaReconciliationAPI.parse_date` -/

/-- Parse a nonempty all-digit string. -/
def natOfDigits? (s : String) : Option ℕ :=
  if s.data ≠ [] ∧ s.data.all Char.isDigit then
    some (s.data.foldl (fun a c => 10 * a + (c.toNat - 48)) 0)
  else none

/-- A `DateTime` at midnight, if the calendar date is valid. -/
def mkDate? (y m d : ℕ) : Option DateTime :=
  if validDate y m d then some ⟨y, m, d, 0, 0, 0⟩ else none

/-- `strptime` with format `%Y-%m-%d` (4-digit year, 1-2 digit month/day). -/
def fmtYMDdash (s : String) : Option DateTime :=
  match pySplitOn '-' s with
  | [ys, ms, ds] =>
      if ys.length = 4 ∧ ms.length ≤ 2 ∧ ds.length ≤ 2 then
        match natOfDigits? ys, natOfDigits? ms, natOfDigits? ds with
        | some y, some m, some d => mkDate? y m d
        | _, _, _ => none
      else none
  | _ => none

/-- `strptime` with format `%m<sep>%d<sep>%Y`. -/
def fmtMDY (sep : Char) (s : String) : Option DateTime :=
  match pySplitOn sep s with
  | [ms, ds, ys] =>
      if ms.length ≤ 2 ∧ ds.length ≤ 2 ∧ ys.length = 4 then
        match natOfDigits? ms, natOfDigits? ds, natOfDigits? ys with
        | some m, some d, some y => mkDate? y m d
        | _, _, _ => none
      else none
  | _ => none

/-- `strptime` with format `%d/%m/%Y`. -/
def fmtDMYslash (s : String) : Option DateTime :=
  match pySplitOn '/' s with
  | [ds, ms, ys] =>
      if ds.length ≤ 2 ∧ ms.length ≤ 2 ∧ ys.length = 4 then
        match natOfDigits? ds, natOfDigits? ms, natOfDigits? ys with
        | some d, some m, some y => mkDate? y m d
        | _, _, _ => none
      else none
  | _ => none

/-- `strptime` with format `%m.%d.%y` (two-digit year, Python pivot 68). -/
def fmtMDy2 (s : String) : Option DateTime :=
  match pySplitOn '.' s with
  | [ms, ds, ys] =>
      if ms.length ≤ 2 ∧ ds.length ≤ 2 ∧ ys.length = 2 then
        match natOfDigits? ms, natOfDigits? ds, natOfDigits? ys with
        | some m, some d, some yy =>
            mkDate? (if yy ≤ 68 then 2000 + yy else 1900 + yy) m d
        | _, _, _ => none
      else none
  | _ => none

/-- The fallback format list, tried in source order with per-format failure
caught (`try`/`except: continue`). -/
def tryFormats (s : String) : Option DateTime :=
  match fmtYMDdash s with
  | some d => some d
  | none =>
    match fmtMDY '/' s with
    | some d => some d
    | none =>
      match fmtDMYslash s with
      | some d => some d
      | none =>
        match fmtMDy2 s with
        | some d => some d
        | none => fmtMDY '-' s

/-- `YYYY-MM-DD` with strict 2-digit month/day, as `datetime.fromisoformat`. -/
def isoDate (l : List Char) : Option (ℕ × ℕ × ℕ) :=
  match l with
  | [y1, y2, y3, y4, '-', m1, m2, '-', d1, d2] =>
      if [y1, y2, y3, y4, m1, m2, d1, d2].all Char.isDigit then
        some (((y1.toNat - 48) * 1000 + (y2.toNat - 48) * 100 +
                (y3.toNat - 48) * 10 + (y4.toNat - 48)),
              ((m1.toNat - 48) * 10 + (m2.toNat - 48)),
              ((d1.toNat - 48) * 10 + (d2.toNat - 48)))
      else none
  | _ => none

/-- `HH`, `HH:MM` or `HH:MM:SS` with strict 2-digit fields. -/
def isoTime (l : List Char) : Option (ℕ × ℕ × ℕ) :=
  match l with
  | [h1, h2] =>
      if [h1, h2].all Char.isDigit then
        some ((h1.toNat - 48) * 10 + (h2.toNat - 48), 0, 0)
      else none
  | [h1, h2, ':', m1, m2] =>
      if [h1, h2, m1, m2].all Char.isDigit then
        some ((h1.toNat - 48) * 10 + (h2.toNat - 48),
              (m1.toNat - 48) * 10 + (m2.toNat - 48), 0)
      else none
  | [h1, h2, ':', m1, m2, ':', s1, s2] =>
      if [h1, h2, m1, m2, s1, s2].all Char.isDigit then
        some ((h1.toNat - 48) * 10 + (h2.toNat - 48),
              (m1.toNat - 48) * 10 + (m2.toNat - 48),
              (s1.toNat - 48) * 10 + (s2.toNat - 48))
      else none
  | _ => none

/-- `datetime.fromisoformat` on a `YYYY-MM-DD[ HH[:MM[:SS]]]` string
(`none` models the `ValueError` it raises on anything else). -/
def isoParse (s : String) : Option DateTime :=
  let l := s.data
  if l.length = 10 then
    match isoDate l with
    | some (y, m, d) => mkDate? y m d
    | none => none
  else
    match (l.drop 10).head? with
    | some ' ' =>
        match isoDate (l.take 10), isoTime (l.drop 11) with
        | some (y, m, d), some (h, mi, sec) =>
            if validDate y m d ∧ validTime h mi sec then
              some ⟨y, m, d, h, mi, sec⟩
            else none
        | _, _ => none
    | _ => none

/-- Body of `parse_date` without the outer `try`/`except`: an uncaught
exception (the `fromisoformat` `ValueError` on a malformed ISO-like string)
is an `Except.error`. -/
def parseDateBody (s : String) : Except String (Option DateTime) :=
  if s = "" then .ok none
  else
    let t := pyStrip s
    if containsChar t 'T' || containsChar t ' ' then
      match isoParse (String.mk ((t.data.map fun c => if c = 'T' then ' ' else c).takeWhile
          fun c => c ≠ '.')) with
      | some d => .ok (some d)
      | none => .error "Invalid isoformat string"
    else .ok (tryFormats t)

/-- `parse_date`: the body wrapped in the outer `try`/`except: return None`. -/
def parse_date (s : String) : Option DateTime :=
  match parseDateBody s with
  | .ok o => o
  | .error _ => none

/-! ### Transaction records and `engineer_features` -/

/-- One transaction dictionary.  `none` outer layers model absent keys
(`dict.get` defaults apply); for `amount`, `some none` models a value present
but on which `float(...)` raises. -/
structure Txn where
  customer_name : Option String
  service : Option String
  amount : Option (Option ℚ)
  date : Option String
deriving DecidableEq

/-- `str(txn.get('customer_name', ''))`. -/
def nameStr (t : Txn) : String := t.customer_name.getD ""

/-- `str(txn.get('service', ''))`. -/
def serviceStr (t : Txn) : String := t.service.getD ""

/-- `txn.get('date', '')`. -/
def dateStr (t : Txn) : String := t.date.getD ""

/-- `float(txn.get('amount', 0))`: `none` when the coercion raises. -/
def getAmount (t : Txn) : Option ℚ :=
  match t.amount with
  | none => some 0
  | some none => none
  | some (some q) => some q

/-- The engineered feature vector (all six fields always present). -/
structure FeatureVector where
  name_similarity : ℚ
  service_similarity : ℚ
  treatment_category_match : ℕ
  date_proximity : ℚ
  amount_ratio_valid : ℕ
  overall_confidence : ℚ
deriving DecidableEq

/-- The fixed category → keyword table, in source order. -/
def treatmentKeywords : List (List String) :=
  [["botox", "lyft", "neurotoxin", "dysport", "toxin", "wrinkle"],
   ["filler", "juvederm", "voluma", "restylane", "radiesse", "dermal"],
   ["coolsculpting", "body sculpting", "fat freezing", "cryo"],
   ["laser", "ipl", "photofacial", "hair removal", "skin resurfacing"],
   ["iv", "im", "injection", "vitamin", "b-12", "wellness", "hydration"]]

/-- Normalised reward-side customer name. -/
def rewardNameOf (A : Txn) : String := pyStrip (pyLower (nameStr A))

/-- Normalised pos-side customer name, with the "Last, First" rewrite when
the pos name contains a comma, the reward name does not, and the comma split
has exactly two parts. -/
def posNameOf (A B : Txn) : String :=
  let pn := pyStrip (pyLower (nameStr B))
  if containsChar pn ',' && !containsChar (rewardNameOf A) ',' then
    let parts := pySplitOn ',' pn
    if parts.length = 2 then
      pyStrip (parts.getD 1 "") ++ " " ++ pyStrip (parts.getD 0 "")
    else pn
  else pn

/-- `features['name_similarity']`. -/
def nameSimF (A B : Txn) : ℚ := (ratio (rewardNameOf A) (posNameOf A B) : ℚ) / 100

/-- `features['service_similarity']`. -/
def serviceSimF (A B : Txn) : ℚ :=
  (ratio (pyLower (serviceStr A)) (pyLower (serviceStr B)) : ℚ) / 100

/-- `features['treatment_category_match']`: 1 iff some category's keyword
list hits both (lowered) service strings; the loop breaks at the first such
category, which does not change the value. -/
def catMatchF (A B : Txn) : ℕ :=
  if treatmentKeywords.any (fun kws =>
      kws.any (fun k => substrOf k (pyLower (serviceStr A))) &&
      kws.any (fun k => substrOf k (pyLower (serviceStr B)))) then 1 else 0

/-- `features['date_proximity']`: `max(0, 1 - hours/168)`, 0 when either
date fails to parse. -/
def dateProxF (A B : Txn) : ℚ :=
  match parse_date (dateStr A), parse_date (dateStr B) with
  | some r, some p => max 0 (1 - hoursDiff r p / 168)
  | _, _ => 0

/-- `features['amount_ratio_valid']`: 1 iff the pos amount is positive and
`reward/pos ∈ [0.05, 0.5]`; any coercion failure yields 0. -/
def amtValidF (A B : Txn) : ℕ :=
  match getAmount A, getAmount B with
  | some ra, some pa =>
      if 0 < pa then (if 1/20 ≤ ra / pa ∧ ra / pa ≤ 1/2 then 1 else 0) else 0
  | _, _ => 0

/-- `features['overall_confidence']`: the fixed weighted sum. -/
def overallF (A B : Txn) : ℚ :=
  nameSimF A B * (4/10) + serviceSimF A B * (3/10) +
    dateProxF A B * (2/10) + (amtValidF A B : ℚ) * (1/10)

/-- `MedSpaReconciliationAPI.engineer_features`. -/
def engineer_features (A B : Txn) : FeatureVector :=
  { name_similarity := nameSimF A B
    service_similarity := serviceSimF A B
    treatment_category_match := catMatchF A B
    date_proximity := dateProxF A B
    amount_ratio_valid := amtValidF A B
    overall_confidence := overallF A B }

/-! ### `predict_match` -/

/-- The probability after the first boost of `predict_match`: `+0.2`
(capped at 1) when `name_similarity > 0.8` and the category matches. -/
def boostP1 (A B : Txn) : ℚ :=
  if nameSimF A B > 8/10 ∧ catMatchF A B = 1 then min 1 (overallF A B + 2/10)
  else overallF A B

/-- The probability after both boosts of `predict_match`: additionally
`+0.1` (capped at 1) when `date_proximity > 0.8`. -/
def boostedProb (A B : Txn) : ℚ :=
  if dateProxF A B > 8/10 then min 1 (boostP1 A B + 1/10) else boostP1 A B

/-- `round(x, k)` for `k` decimal places. -/
def roundTo (k : ℕ) (x : ℚ) : ℚ := ((round (x * (10 : ℚ) ^ k) : ℤ) : ℚ) / (10 : ℚ) ^ k

/-- The result dictionary of `predict_match`. -/
structure MatchResult where
  match_probability : ℚ
  predicted_match : ℕ
  confidence_level : String
  recommendation : String
  threshold_used : ℚ
  feature_analysis : FeatureVector
  processing_timestamp : String
  api_version : String
deriving DecidableEq

/-- `MedSpaReconciliationAPI.predict_match` (default `threshold` is 0.95).
`now` models the wall-clock `datetime.now().isoformat()` read. -/
def predict_match (A B : Txn) (θ : ℚ) (now : String) : MatchResult :=
  let f := engineer_features A B
  let p := boostedProb A B
  { match_probability := roundTo 4 p
    predicted_match := if p ≥ θ then 1 else 0
    confidence_level := if p ≥ 95/100 then "High"
      else if p ≥ 80/100 then "Medium" else "Low"
    recommendation := if p ≥ 95/100 then "Auto-Accept"
      else if p ≥ 80/100 then "Manual Review" else "Likely No Match"
    threshold_used := θ
    feature_analysis :=
      { name_similarity := roundTo 3 f.name_similarity
        service_similarity := roundTo 3 f.service_similarity
        treatment_category_match := f.treatment_category_match
        date_proximity := roundTo 3 f.date_proximity
        amount_ratio_valid := f.amount_ratio_valid
        overall_confidence := roundTo 3 f.overall_confidence }
    processing_timestamp := now
    api_version := "1.0.0-final-cors-fixed" }

/-! ### `/batch-predict` -/

/-- One element of `transaction_pairs`: each side is `pair.get(...)`, with
`none` when the key is absent or its value is not an object. -/
structure BPair where
  reward : Option Txn
  pos : Option Txn
deriving DecidableEq

/-- One slot of the batch `results` list: either a prediction annotated with
its pair index, or the fallback error entry built in the per-pair
`except` block (`match_probability` 0, `confidence_level` "Error",
`recommendation` "Manual Review Required"). -/
inductive BSlot where
  | ok (result : MatchResult) (pair_index : ℕ)
  | err (pair_index : ℕ) (msg : String)
deriving DecidableEq

/-- `r.get('recommendation')` of a slot. -/
def slotRec : BSlot → String
  | .ok r _ => r.recommendation
  | .err _ _ => "Manual Review Required"

/-- Whether the slot dictionary carries an `error` key. -/
def slotHasError : BSlot → Bool
  | .ok _ _ => false
  | .err _ _ => true

/-- The `pair_index` annotation of a slot. -/
def slotIndex : BSlot → ℕ
  | .ok _ i => i
  | .err i _ => i

/-- Per-transaction validation of the batch loop: the four required-field
checks in source order, then the `float` coercion; failures `raise
ValueError` (an `Except.error` escaping the loop). -/
def validateTxn (nm : String) (t : Txn) : Except String Unit :=
  if t.customer_name.isNone then .error (nm ++ ".customer_name is required")
  else if t.service.isNone then .error (nm ++ ".service is required")
  else if t.amount.isNone then .error (nm ++ ".amount is required")
  else if t.date.isNone then .error (nm ++ ".date is required")
  else
    match t.amount with
    | some (some _) => .ok ()
    | _ => .error (nm ++ ".amount must be a number")

/-- The `for i, pair in enumerate(transaction_pairs)` loop.  Validation
errors propagate (they are raised outside the per-pair `try`); only
`api.predict_match` is guarded by the per-pair `except`, and in this model
it is total, so no `err` slot is ever produced. -/
def batchLoop (θ : ℚ) (now : String) : ℕ → List BPair → Except String (List BSlot)
  | _, [] => .ok []
  | i, p :: ps =>
      match p.reward, p.pos with
      | some rt, some pt =>
          match validateTxn ("reward_transaction[" ++ toString i ++ "]") rt with
          | .error e => .error e
          | .ok _ =>
            match validateTxn ("pos_transaction[" ++ toString i ++ "]") pt with
            | .error e => .error e
            | .ok _ =>
              match batchLoop θ now (i + 1) ps with
              | .error e => .error e
              | .ok rest => .ok (.ok (predict_match rt pt θ now) i :: rest)
      | _, _ =>
          .error ("transaction_pairs[" ++ toString i ++ "] transactions must be objects")

/-- The successful response body of `/batch-predict` (results, summary and
processing info fields). -/
structure BatchOut where
  results : List BSlot
  total : ℕ
  auto_accept : ℕ
  manual_review : ℕ
  likely_no_match : ℕ
  auto_accept_rate_percent : ℤ
  successful_predictions : ℕ
  threshold_used : ℚ
deriving DecidableEq

/-- The `batch_predict` route handler after JSON extraction: threshold range
check, the pair loop, then the summary.  A `ValueError` anywhere outside the
per-pair `try` rejects the whole request (`Except.error`). -/
def batch_predict (pairs : List BPair) (θ : ℚ) (now : String) :
    Except String BatchOut :=
  if 0 ≤ θ ∧ θ ≤ 1 then
    match batchLoop θ now 0 pairs with
    | .error e => .error e
    | .ok results =>
        let auto := (results.filter fun r => slotRec r = "Auto-Accept").length
        let man := (results.filter fun r => slotRec r = "Manual Review").length
        let lnm := (results.filter fun r => slotRec r = "Likely No Match").length
        .ok { results := results
              total := results.length
              auto_accept := auto
              manual_review := man
              likely_no_match := lnm
              auto_accept_rate_percent :=
                if results.length = 0 then 0
                else round (((auto : ℚ) / results.length) * 100)
              successful_predictions := (results.filter fun r => !slotHasError r).length
              threshold_used := θ }
  else .error "threshold must be between 0 and 1"

/-! ### Definitions written from the specification's words, for comparison -/

/-- Spec wording (C2): the fixed confidence bucketing, checked top-down. -/
def bucketLevel (p : ℚ) : String :=
  if p ≥ 95/100 then "High" else if p ≥ 80/100 then "Medium" else "Low"

/-- Spec wording (C2): the fixed recommendation bucketing, checked top-down. -/
def bucketRec (p : ℚ) : String :=
  if p ≥ 95/100 then "Auto-Accept"
  else if p ≥ 80/100 then "Manual Review" else "Likely No Match"

/-- Spec wording (C6): `clamp(0,100, round(100 * (0.6*jaccard_with_bonus +
0.4*char_overlap)))` with round-to-nearest. -/
def ratioSpecRounded (s1 s2 : String) : ℤ :=
  min 100 (max 0 (round ((jaccardWithBonus (normStr s1) (normStr s2) * (6/10) +
    charOverlap (normStr s1) (normStr s2) * (4/10)) * 100)))

/-- A `MatchResult` with its wall-clock timestamp blanked, to compare the
deterministic part of two results. -/
def eraseTs (r : MatchResult) : MatchResult := { r with processing_timestamp := "" }

/-- A record with every absent field replaced by the `dict.get` default used
in `engineer_features` (names, services and dates by `""`, amount by `0`). -/
def fillDefaults (t : Txn) : Txn :=
  { customer_name := some (t.customer_name.getD "")
    service := some (t.service.getD "")
    amount := some (t.amount.getD (some 0))
    date := some (t.date.getD "") }

/-- A transaction that passes the batch validation loop. -/
def wfTxn (t : Txn) : Bool :=
  t.customer_name.isSome && t.service.isSome &&
    (match t.amount with | some (some _) => true | _ => false) && t.date.isSome

/-- A batch pair that passes the batch validation loop. -/
def wfPair (p : BPair) : Bool :=
  match p.reward, p.pos with
  | some a, some b => wfTxn a && wfTxn b
  | _, _ => false

/-! ### Concrete records used by several claims -/

/-- Reward-side record of the spec's end-to-end example. -/
def txnA : Txn :=
  ⟨some "Sarah Johnson", some "Botox Treatment", some (some 35), some "2024-08-15"⟩

/-- Pos-side record of the spec's end-to-end example. -/
def txnB : Txn :=
  ⟨some "Johnson, Sarah", some "Neurotoxin Injection", some (some 350),
    some "2024-08-15 14:30:00"⟩

/-- A pos-side record with the `service` key missing. -/
def badPos : Txn := ⟨some "John Smith", none, some (some 100), some "2024-08-15"⟩

/-! ### Claim theorems

The Batteries rational-arithmetic primitives are `@[irreducible]`, which
blocks `decide`'s evaluation (the kernel itself ignores reducibility);
restore semireducibility locally so concrete scores evaluate. -/

section DecideRat

set_option allowUnsafeReducibility true

set_option maxRecDepth 4000

attribute [local semireducible] Rat.mul Rat.add Rat.inv Rat.sub

/-- C2: for every pair of records and every threshold, `confidence_level`
and `recommendation` are determined solely by the boosted probability
against the fixed cutoffs 0.95 (High/Auto-Accept) and 0.80 (Medium/Manual
Review), checked top-down, independently of the threshold (and wall-clock)
parameters; the threshold determines only the `predicted_match` flag, which
is 1 iff the boosted probability is ≥ the threshold. -/
theorem c2_threshold_independent (A B : Txn) (θ₁ θ₂ : ℚ) (n₁ n₂ : String) :
    (predict_match A B θ₁ n₁).confidence_level = bucketLevel (boostedProb A B) ∧
    (predict_match A B θ₁ n₁).recommendation = bucketRec (boostedProb A B) ∧
    (predict_match A B θ₁ n₁).confidence_level =
      (predict_match A B θ₂ n₂).confidence_level ∧
    (predict_match A B θ₁ n₁).recommendation =
      (predict_match A B θ₂ n₂).recommendation ∧
    (predict_match A B θ₁ n₁).predicted_match =
      (if boostedProb A B ≥ θ₁ then 1 else 0) :=
  ⟨rfl, rfl, rfl, rfl, rfl⟩

/-- C3: on the spec's end-to-end example (Sarah Johnson / "Johnson, Sarah",
Botox Treatment / Neurotoxin Injection, 35 / 350, 2024-08-15 /
2024-08-15 14:30:00) the features come out as claimed and the default-
threshold prediction is High / Auto-Accept. -/
theorem c3_end_to_end_example :
    (engineer_features txnA txnB).treatment_category_match = 1 ∧
    (engineer_features txnA txnB).amount_ratio_valid = 1 ∧
    (engineer_features txnA txnB).date_proximity > 9/10 ∧
    (engineer_features txnA txnB).name_similarity = 1 ∧
    ∀ now : String,
      (predict_match txnA txnB (95/100) now).confidence_level = "High" ∧
      (predict_match txnA txnB (95/100) now).recommendation = "Auto-Accept" := by
  refine ⟨by decide, by decide, by decide, by decide, fun now => ⟨?_, ?_⟩⟩
  · have h : (predict_match txnA txnB (95/100) now).confidence_level =
        bucketLevel (boostedProb txnA txnB) := rfl
    rw [h]; decide
  · have h : (predict_match txnA txnB (95/100) now).recommendation =
        bucketRec (boostedProb txnA txnB) := rfl
    rw [h]; decide

/-- C9 counterexample: two calls to `predict_match` with identical record
and threshold inputs but made at different wall-clock instants differ
(in their `processing_timestamp` field), so the whole result objects are
not byte-identical. -/
theorem c9_counterexample :
    predict_match txnA txnB (95/100) "2025-01-01T00:00:00" ≠
      predict_match txnA txnB (95/100) "2025-01-01T00:00:01" := by
  decide

/-- C9 amended: every field of `predict_match` other than
`processing_timestamp` is a pure function of the two records and the
threshold, so two calls with identical inputs agree once the wall-clock
timestamp is blanked. -/
theorem c9_amended_deterministic (A B : Txn) (θ : ℚ) (t₁ t₂ : String) :
    eraseTs (predict_match A B θ t₁) = eraseTs (predict_match A B θ t₂) := rfl

/-- C7 counterexample: `" "` is empty after trimming, yet
`ratio " " "x"` is 18, not 0 — the emptiness check runs before trimming,
so whitespace-only inputs slip past it and collect the substring bonus. -/
theorem c7_counterexample : pyStrip " " = "" ∧ ratio " " "x" = 18 := by decide

/-- C7 amended: the similarity primitive returns 0 when either raw input is
the empty string (the Python falsiness check precedes trimming); an input
that is nonempty but whitespace-only is not covered. -/
theorem c7_amended_empty (a b : String) (h : a = "" ∨ b = "") : ratio a b = 0 := by
  unfold ratio
  rw [if_pos h]

/-- C7 amended witness at `a = ""`, `b = "x"`. -/
theorem c7_amended_empty_witness : ratio "" "x" = 0 :=
  c7_amended_empty "" "x" (Or.inl rfl)

/-- C5 counterexample: the char-overlap count is directional, so the
similarity primitive is not symmetric: `ratio "aa" "ab" = 40` but
`ratio "ab" "aa" = 20`. -/
theorem c5_counterexample : ratio "aa" "ab" = 40 ∧ ratio "ab" "aa" = 20 := by decide

/-- C6 counterexample: on `("abc", "xbc")` (both nonempty, distinct after
normalisation) the code truncates `26.66…` to 26 via `int(...)`, while the
claimed round-to-nearest formula yields 27. -/
theorem c6_counterexample :
    ratio "abc" "xbc" = 26 ∧ ratioSpecRounded "abc" "xbc" = 27 ∧
    normStr "abc" ≠ normStr "xbc" := by decide

/-- The first character surviving `dropWhile isSp` is not whitespace. -/
lemma dropWhile_isSp_head (l : List Char) (c : Char) (rest : List Char)
    (h : l.dropWhile isSp = c :: rest) : isSp c = false := by
  induction l with
  | nil => simp at h
  | cons a as ih =>
    by_cases ha : isSp a
    · rw [List.dropWhile_cons_of_pos ha] at h
      exact ih h
    · rw [List.dropWhile_cons_of_neg ha] at h
      cases h
      exact Bool.of_not_eq_true ha

/-- If the whitespace splitter returns no token, every character was
whitespace and the accumulator was empty. -/
lemma splitWsAux_eq_nil (l : List Char) : ∀ acc, splitWsAux l acc = [] →
    (∀ c ∈ l, isSp c = true) ∧ acc = [] := by
  induction l with
  | nil =>
    intro acc h
    by_cases hacc : acc = []
    · exact ⟨by simp, hacc⟩
    · simp [splitWsAux, hacc] at h
  | cons c cs ih =>
    intro acc h
    rw [splitWsAux] at h
    by_cases hc : isSp c
    · rw [if_pos hc] at h
      by_cases hacc : acc = []
      · rw [if_pos hacc] at h
        obtain ⟨h1, _⟩ := ih [] h
        refine ⟨?_, hacc⟩
        intro x hx
        rcases List.mem_cons.mp hx with hx | hx
        · exact hx ▸ hc
        · exact h1 x hx
      · rw [if_neg hacc] at h
        cases h
    · rw [if_neg hc] at h
      obtain ⟨_, h2⟩ := ih (c :: acc) h
      cases h2

/-- A stripped character list all of whose characters are whitespace is
empty. -/
lemma stripChars_eq_nil_of_all (m : List Char)
    (h : ∀ c ∈ stripChars m, isSp c = true) : stripChars m = [] := by
  unfold stripChars at h ⊢
  cases hY : (m.dropWhile isSp).reverse.dropWhile isSp with
  | nil => simp [hY]
  | cons c rest =>
    have hc : isSp c = false := dropWhile_isSp_head _ _ _ hY
    have hmem : c ∈ ((m.dropWhile isSp).reverse.dropWhile isSp).reverse := by
      rw [hY]; simp
    have := h c hmem
    rw [hc] at this
    cases this

/-- If the token set of a normalised string is empty, the string is empty. -/
lemma normStr_eq_empty_of_tokenSet (s : String)
    (h : tokenSet (normStr s) = ∅) : normStr s = "" := by
  have htok : wsTokens (normStr s) = [] := by
    have := List.toFinset_eq_empty_iff (wsTokens (normStr s)) |>.mp h
    exact this
  have hsplit : splitWsAux (normStr s).data [] = [] := by
    unfold wsTokens at htok
    exact List.map_eq_nil_iff.mp htok
  have hall : ∀ c ∈ (normStr s).data, isSp c = true :=
    (splitWsAux_eq_nil _ [] hsplit).1
  have hdata : (normStr s).data = stripChars (pyLower s).data := rfl
  have : stripChars (pyLower s).data = [] := by
    apply stripChars_eq_nil_of_all
    intro c hc
    exact hall c (hdata ▸ hc)
  show pyStrip (pyLower s) = ""
  unfold pyStrip
  rw [this]

/-- C5 amended: the Jaccard, substring-bonus and length components of the
similarity score are symmetric; the only directional ingredient is the
character-overlap count, so whenever the two directional counts agree the
score is symmetric (they need not agree: see the counterexample). -/
theorem c5_amended_symmetric (a b : String)
    (h : charCommon (normStr a) (normStr b) = charCommon (normStr b) (normStr a)) :
    ratio a b = ratio b a := by
  unfold ratio
  by_cases h1 : a = "" ∨ b = ""
  · rw [if_pos h1, if_pos (Or.symm h1)]
  · rw [if_neg h1, if_neg (show ¬(b = "" ∨ a = "") from fun hx => h1 (Or.symm hx))]
    by_cases h2 : normStr a = normStr b
    · rw [if_pos h2, if_pos h2.symm]
    · rw [if_neg h2,
        if_neg (show ¬normStr b = normStr a from fun hx => h2 hx.symm)]
      have hu : tokenSet (normStr b) ∪ tokenSet (normStr a) =
          tokenSet (normStr a) ∪ tokenSet (normStr b) := Finset.union_comm _ _
      have hi : tokenSet (normStr b) ∩ tokenSet (normStr a) =
          tokenSet (normStr a) ∩ tokenSet (normStr b) := Finset.inter_comm _ _
      rw [hu]
      by_cases h3 : (tokenSet (normStr a) ∪ tokenSet (normStr b)).card = 0
      · rw [if_pos h3, if_pos h3]
      · rw [if_neg h3, if_neg h3]
        have hjb : jaccardWithBonus (normStr b) (normStr a) =
            jaccardWithBonus (normStr a) (normStr b) := by
          unfold jaccardWithBonus tokJaccard
          rw [hu, hi, Bool.or_comm]
        have hco : charOverlap (normStr b) (normStr a) =
            charOverlap (normStr a) (normStr b) := by
          unfold charOverlap
          rw [h, max_comm]
        rw [hjb, hco]

/-- C5 amended witness: `"ab"` and `"cb"` have equal directional overlap
counts, so the theorem applies and the two scores agree. -/
theorem c5_amended_symmetric_witness : ratio "ab" "cb" = ratio "cb" "ab" :=
  c5_amended_symmetric "ab" "cb" (by decide)

/-- C6 amended: for raw-nonempty inputs with distinct normalised forms, the
score is `min(100, 100*(0.6*jaccard_with_bonus + 0.4*char_overlap))`
truncated with `int(...)` (a floor on this nonnegative quantity) — not
rounded to the nearest integer as claimed. -/
theorem c6_amended_floor_formula (s1 s2 : String) (h1 : s1 ≠ "") (h2 : s2 ≠ "")
    (h3 : normStr s1 ≠ normStr s2) :
    ratio s1 s2 =
      (⌊min 100 ((jaccardWithBonus (normStr s1) (normStr s2) * (6/10) +
        charOverlap (normStr s1) (normStr s2) * (4/10)) * 100)⌋).toNat := by
  unfold ratio
  rw [if_neg (not_or.mpr ⟨h1, h2⟩), if_neg h3, if_neg ?_]
  intro hcard
  have hunion := Finset.card_eq_zero.mp hcard
  obtain ⟨e1, e2⟩ := Finset.union_eq_empty.mp hunion
  have n1 := normStr_eq_empty_of_tokenSet s1 e1
  have n2 := normStr_eq_empty_of_tokenSet s2 e2
  exact h3 (n1.trans n2.symm)

/-- C6 amended witness at `("abc", "xbc")`. -/
theorem c6_amended_floor_formula_witness :
    ratio "abc" "xbc" =
      (⌊min 100 ((jaccardWithBonus (normStr "abc") (normStr "xbc") * (6/10) +
        charOverlap (normStr "abc") (normStr "xbc") * (4/10)) * 100)⌋).toNat :=
  c6_amended_floor_formula "abc" "xbc" (by decide) (by decide) (by decide)

/-- C8: `parse_date` is total — for every input string it returns either
null or a parsed timestamp, and whenever its body would raise (an
`Except.error`, e.g. the `fromisoformat` failure on a malformed ISO-like
string) the outer handler turns the call into null rather than an
exception. -/
theorem c8_parse_date_total (s : String) :
    (parse_date s = none ∨ ∃ d, parse_date s = some d) ∧
    (∀ e, parseDateBody s = Except.error e → parse_date s = none) := by
  constructor
  · cases h : parse_date s
    · exact Or.inl rfl
    · exact Or.inr ⟨_, rfl⟩
  · intro e he
    unfold parse_date
    rw [he]

/-- C8 witness: `"garbage here"` contains a space, so the body takes the
`fromisoformat` path and raises; `parse_date` returns null. -/
theorem c8_parse_date_total_witness : parse_date "garbage here" = none :=
  (c8_parse_date_total "garbage here").2 "Invalid isoformat string" rfl

/-- The similarity score is capped at 100 in every branch. -/
lemma ratio_le_hundred (s1 s2 : String) : ratio s1 s2 ≤ 100 := by
  unfold ratio
  split
  · omega
  split
  · omega
  split
  · omega
  refine Int.toNat_le.mpr ?_
  have h1 : min 100 ((jaccardWithBonus (normStr s1) (normStr s2) * (6/10) +
      charOverlap (normStr s1) (normStr s2) * (4/10)) * 100) ≤ (100 : ℚ) :=
    min_le_left _ _
  calc ⌊min 100 ((jaccardWithBonus (normStr s1) (normStr s2) * (6/10) +
        charOverlap (normStr s1) (normStr s2) * (4/10)) * 100)⌋
      ≤ ⌊(100 : ℚ)⌋ := Int.floor_le_floor h1
    _ = 100 := by norm_num

/-- `name_similarity` lies in `[0, 1]`. -/
lemma nameSimF_mem (A B : Txn) : 0 ≤ nameSimF A B ∧ nameSimF A B ≤ 1 := by
  unfold nameSimF
  constructor
  · positivity
  · rw [div_le_one (by norm_num)]
    exact_mod_cast ratio_le_hundred (rewardNameOf A) (posNameOf A B)

/-- `service_similarity` lies in `[0, 1]`. -/
lemma serviceSimF_mem (A B : Txn) : 0 ≤ serviceSimF A B ∧ serviceSimF A B ≤ 1 := by
  unfold serviceSimF
  constructor
  · positivity
  · rw [div_le_one (by norm_num)]
    exact_mod_cast ratio_le_hundred (pyLower (serviceStr A)) (pyLower (serviceStr B))

/-- The absolute hour difference is nonnegative. -/
lemma hoursDiff_nonneg (a b : DateTime) : 0 ≤ hoursDiff a b := by
  unfold hoursDiff
  positivity

/-- `date_proximity` lies in `[0, 1]`. -/
lemma dateProxF_mem (A B : Txn) : 0 ≤ dateProxF A B ∧ dateProxF A B ≤ 1 := by
  unfold dateProxF
  cases parse_date (dateStr A) with
  | none => exact ⟨le_refl 0, by norm_num⟩
  | some r =>
    cases parse_date (dateStr B) with
    | none => exact ⟨le_refl 0, by norm_num⟩
    | some p =>
      constructor
      · exact le_max_left 0 _
      · refine max_le (by norm_num) ?_
        have := hoursDiff_nonneg r p
        have h168 : 0 ≤ hoursDiff r p / 168 := by positivity
        linarith

/-- `amount_ratio_valid` is 0 or 1. -/
lemma amtValidF_le_one (A B : Txn) : amtValidF A B ≤ 1 := by
  unfold amtValidF
  cases getAmount A with
  | none => exact Nat.zero_le 1
  | some ra =>
    cases getAmount B with
    | none => exact Nat.zero_le 1
    | some pa =>
      dsimp only
      split
      · split <;> omega
      · omega

/-- `overall_confidence` lies in `[0, 1]`. -/
lemma overallF_mem (A B : Txn) : 0 ≤ overallF A B ∧ overallF A B ≤ 1 := by
  obtain ⟨a1, a2⟩ := nameSimF_mem A B
  obtain ⟨b1, b2⟩ := serviceSimF_mem A B
  obtain ⟨c1, c2⟩ := dateProxF_mem A B
  have d1 : (0 : ℚ) ≤ (amtValidF A B : ℚ) := by positivity
  have d2 : (amtValidF A B : ℚ) ≤ 1 := by
    exact_mod_cast amtValidF_le_one A B
  unfold overallF
  constructor <;> linarith

/-- The first boost keeps the probability in `[0, 1]`. -/
lemma boostP1_mem (A B : Txn) : 0 ≤ boostP1 A B ∧ boostP1 A B ≤ 1 := by
  obtain ⟨h0, h1⟩ := overallF_mem A B
  unfold boostP1
  split
  · exact ⟨le_min (by norm_num) (by linarith), min_le_left _ _⟩
  · exact ⟨h0, h1⟩

/-- The boosted probability lies in `[0, 1]`. -/
lemma boostedProb_mem (A B : Txn) : 0 ≤ boostedProb A B ∧ boostedProb A B ≤ 1 := by
  obtain ⟨h0, h1⟩ := boostP1_mem A B
  unfold boostedProb
  split
  · exact ⟨le_min (by norm_num) (by linarith), min_le_left _ _⟩
  · exact ⟨h0, h1⟩

/-- Rounding to `k` decimals preserves nonnegativity. -/
lemma roundTo_nonneg (k : ℕ) (x : ℚ) (hx : 0 ≤ x) : 0 ≤ roundTo k x := by
  unfold roundTo
  apply div_nonneg _ (by positivity)
  have h : (0 : ℤ) ≤ round (x * (10 : ℚ) ^ k) := by
    rw [round_eq]
    apply Int.floor_nonneg.mpr
    have : (0 : ℚ) ≤ x * (10 : ℚ) ^ k := by positivity
    linarith
  exact_mod_cast h

/-- Rounding to `k` decimals preserves being at most 1. -/
lemma roundTo_le_one (k : ℕ) (x : ℚ) (hx : x ≤ 1) : roundTo k x ≤ 1 := by
  unfold roundTo
  rw [div_le_one (by positivity)]
  have hpow : (0 : ℚ) < (10 : ℚ) ^ k := by positivity
  have h : round (x * (10 : ℚ) ^ k) ≤ (10 : ℤ) ^ k := by
    rw [round_eq]
    have hxp : x * (10 : ℚ) ^ k ≤ (10 : ℚ) ^ k :=
      mul_le_of_le_one_left (le_of_lt hpow) hx
    have hlt : x * (10 : ℚ) ^ k + 1/2 < ((10 : ℤ) ^ k : ℚ) + 1 := by
      push_cast
      linarith
    have := Int.floor_lt.mpr (show x * (10 : ℚ) ^ k + 1/2 < (((10 : ℤ) ^ k + 1 : ℤ) : ℚ) by
      push_cast
      push_cast at hlt
      linarith)
    omega
  calc ((round (x * (10 : ℚ) ^ k) : ℤ) : ℚ) ≤ (((10 : ℤ) ^ k : ℤ) : ℚ) := by exact_mod_cast h
    _ = (10 : ℚ) ^ k := by push_cast; ring

/-- C4: for every pair of records and every threshold, both the
`overall_confidence` computed by `engineer_features` and the
`match_probability` returned by `predict_match` lie in `[0, 1]`, including
after the `+0.2` and `+0.1` boosts (and the 4-decimal rounding). -/
theorem c4_probability_bounds (A B : Txn) (θ : ℚ) (now : String) :
    0 ≤ (engineer_features A B).overall_confidence ∧
    (engineer_features A B).overall_confidence ≤ 1 ∧
    0 ≤ (predict_match A B θ now).match_probability ∧
    (predict_match A B θ now).match_probability ≤ 1 := by
  have hoc : (engineer_features A B).overall_confidence = overallF A B := rfl
  have hmp : (predict_match A B θ now).match_probability =
      roundTo 4 (boostedProb A B) := rfl
  obtain ⟨o1, o2⟩ := overallF_mem A B
  obtain ⟨p1, p2⟩ := boostedProb_mem A B
  exact ⟨hoc ▸ o1, hoc ▸ o2,
    hmp ▸ roundTo_nonneg 4 _ p1, hmp ▸ roundTo_le_one 4 _ p2⟩

/-- Filling in the `dict.get` defaults does not change the parsed amount. -/
lemma getAmount_fillDefaults (t : Txn) : getAmount (fillDefaults t) = getAmount t := by
  cases ht : t.amount with
  | none => simp [getAmount, fillDefaults, ht]
  | some v => cases v <;> simp [getAmount, fillDefaults, ht]

/-- Filling in the defaults does not change `amount_ratio_valid`. -/
lemma amtValidF_fillDefaults (A B : Txn) :
    amtValidF (fillDefaults A) (fillDefaults B) = amtValidF A B := by
  unfold amtValidF
  rw [getAmount_fillDefaults, getAmount_fillDefaults]

/-- C10: `amount_ratio_valid` is 0 whenever the parsed pos amount is
non-positive (not only exactly 0) or the amount key is absent from either
record, and `date_proximity` degrades to 0 when a date key is absent;
absent fields silently default (names, services and dates to `""`, amounts
to `0`), so `engineer_features` is unchanged by filling those defaults in —
it is total and always produces the full feature vector. -/
theorem c10_amount_zero_and_defaults (A B : Txn) :
    (∀ pa : ℚ, getAmount B = some pa → pa ≤ 0 →
      (engineer_features A B).amount_ratio_valid = 0) ∧
    (A.amount = none ∨ B.amount = none →
      (engineer_features A B).amount_ratio_valid = 0) ∧
    (A.date = none ∨ B.date = none →
      (engineer_features A B).date_proximity = 0) ∧
    engineer_features (fillDefaults A) (fillDefaults B) = engineer_features A B := by
  have hfield : (engineer_features A B).amount_ratio_valid = amtValidF A B := rfl
  refine ⟨?_, ?_, ?_, ?_⟩
  · intro pa hpa hle
    rw [hfield]
    unfold amtValidF
    rw [hpa]
    cases getAmount A with
    | none => rfl
    | some ra =>
      dsimp only
      rw [if_neg (not_lt.mpr hle)]
  · intro hnone
    rw [hfield]
    unfold amtValidF
    rcases hnone with hA | hB
    · have : getAmount A = some 0 := by simp [getAmount, hA]
      rw [this]
      cases getAmount B with
      | none => rfl
      | some pb =>
        dsimp only
        split
        · rw [if_neg]
          rintro ⟨hc, -⟩
          rw [zero_div] at hc
          norm_num at hc
        · rfl
    · have : getAmount B = some 0 := by simp [getAmount, hB]
      rw [this]
      cases getAmount A with
      | none => rfl
      | some ra =>
        dsimp only
        rw [if_neg (by norm_num)]
  · intro hnone
    have hfield2 : (engineer_features A B).date_proximity = dateProxF A B := rfl
    rw [hfield2]
    unfold dateProxF
    rcases hnone with hA | hB
    · rw [show dateStr A = "" from by simp [dateStr, hA]]
      rfl
    · rw [show dateStr B = "" from by simp [dateStr, hB]]
      cases parse_date (dateStr A) <;> rfl
  · have hamt := amtValidF_fillDefaults A B
    unfold engineer_features
    rw [FeatureVector.mk.injEq]
    refine ⟨rfl, rfl, rfl, rfl, hamt, ?_⟩
    unfold overallF
    rw [hamt]
    rfl

/-- A record whose pos amount is negative, for the C10 witness. -/
def txnNeg : Txn := ⟨some "Jane Doe", some "botox", some (some (-5)), some "2024-08-15"⟩

/-- C10 witness: a negative pos amount forces `amount_ratio_valid = 0`. -/
theorem c10_amount_zero_and_defaults_witness :
    (engineer_features txnA txnNeg).amount_ratio_valid = 0 :=
  (c10_amount_zero_and_defaults txnA txnNeg).1 (-5) rfl (by norm_num)

/-- A transaction passing the batch validation loop is accepted by
`validateTxn`. -/
lemma validateTxn_ok (nm : String) (t : Txn) (h : wfTxn t = true) :
    validateTxn nm t = .ok () := by
  rcases t with ⟨cn, sv, am, dt⟩
  rcases cn with _ | cn
  · simp [wfTxn] at h
  rcases sv with _ | sv
  · simp [wfTxn] at h
  rcases am with _ | am
  · simp [wfTxn] at h
  rcases am with _ | q
  · simp [wfTxn] at h
  rcases dt with _ | dt
  · simp [wfTxn] at h
  rfl

/-- On an all-well-formed suffix, the batch loop succeeds, produces one
non-error slot per pair and numbers them consecutively from the starting
index. -/
lemma batchLoop_ok (θ : ℚ) (now : String) :
    ∀ (pairs : List BPair) (i : ℕ), pairs.all wfPair = true →
    ∃ slots, batchLoop θ now i pairs = .ok slots ∧
      slots.length = pairs.length ∧
      (∀ j (hj : j < slots.length), slotIndex (slots.get ⟨j, hj⟩) = i + j) ∧
      (∀ s ∈ slots, slotHasError s = false) := by
  intro pairs
  induction pairs with
  | nil =>
    intro i _
    refine ⟨[], rfl, rfl, ?_, ?_⟩
    · intro j hj
      simp at hj
    · intro s hs
      simp at hs
  | cons p ps ih =>
    intro i h
    rw [List.all_cons, Bool.and_eq_true] at h
    obtain ⟨hp, hps⟩ := h
    obtain ⟨slots, hs, hlen, hidx, herr⟩ := ih (i + 1) hps
    obtain ⟨pr, ppos⟩ := p
    unfold wfPair at hp
    rcases pr with _ | rt
    · simp at hp
    rcases ppos with _ | pt
    · simp at hp
    simp only [Bool.and_eq_true] at hp
    obtain ⟨h1, h2⟩ := hp
    refine ⟨.ok (predict_match rt pt θ now) i :: slots, ?_, ?_, ?_, ?_⟩
    · dsimp only [batchLoop]
      rw [validateTxn_ok _ rt h1]
      dsimp only
      rw [validateTxn_ok _ pt h2]
      dsimp only
      rw [hs]
    · simp [hlen]
    · intro j hj
      cases j with
      | zero => simp [slotIndex]
      | succ j =>
        have hj2 : j < slots.length := by
          simpa using Nat.lt_of_succ_lt_succ (by simpa using hj)
        have := hidx j hj2
        simpa [Nat.add_assoc, Nat.add_comm 1 j] using this
    · intro s hsmem
      rcases List.mem_cons.mp hsmem with hfirst | hrest
      · rw [hfirst]; rfl
      · exact herr s hrest

/-- C1 counterexample: a batch of one well-formed pair followed by one pair
whose pos record lacks `service` is rejected wholesale with a validation
error — there is no two-slot result list with an error entry in slot 1,
because the required-field check raises outside the per-pair handler. -/
theorem c1_counterexample :
    batch_predict [⟨some txnA, some txnB⟩, ⟨some txnA, some badPos⟩] (95/100) "t" =
      .error "pos_transaction[1].service is required" := by rfl

/-- C1 amended: per-pair isolation holds only for failures raised inside
`predict_match` itself (which cannot occur — the scorer is total on
validated inputs); a pair failing validation (missing field, non-numeric
amount, wrong shape) aborts the whole batch with a validation error.  On a
batch whose pairs all pass validation, the result has one non-error slot
per pair, in input order, each annotated with its index, and all pairs
count as successful predictions. -/
theorem c1_amended_batch (pairs : List BPair) (θ : ℚ) (now : String)
    (h0 : 0 ≤ θ) (h1 : θ ≤ 1) (hw : pairs.all wfPair = true) :
    ∃ out, batch_predict pairs θ now = .ok out ∧
      out.results.length = pairs.length ∧
      (∀ j (hj : j < out.results.length),
        slotIndex (out.results.get ⟨j, hj⟩) = j ∧
        slotHasError (out.results.get ⟨j, hj⟩) = false) ∧
      out.successful_predictions = pairs.length := by
  obtain ⟨slots, hs, hlen, hidx, herr⟩ := batchLoop_ok θ now pairs 0 hw
  unfold batch_predict
  rw [if_pos (⟨h0, h1⟩ : 0 ≤ θ ∧ θ ≤ 1), hs]
  refine ⟨_, rfl, ?_, ?_, ?_⟩
  · exact hlen
  · intro j hj
    have hj2 : j < slots.length := hj
    refine ⟨?_, ?_⟩
    · show slotIndex (slots.get ⟨j, hj2⟩) = j
      simpa using hidx j hj2
    · show slotHasError (slots.get ⟨j, hj2⟩) = false
      exact herr _ (List.get_mem slots j hj2)
  · show (slots.filter fun r => !slotHasError r).length = pairs.length
    rw [List.filter_eq_self.mpr]
    · exact hlen
    · intro s hsmem
      rw [herr s hsmem]
      rfl

/-- C1 amended witness: a singleton well-formed batch succeeds with one
indexed, error-free slot. -/
theorem c1_amended_batch_witness :
    ∃ out, batch_predict [⟨some txnA, some txnB⟩] (95/100) "t" = .ok out ∧
      out.results.length = [(⟨some txnA, some txnB⟩ : BPair)].length ∧
      (∀ j (hj : j < out.results.length),
        slotIndex (out.results.get ⟨j, hj⟩) = j ∧
        slotHasError (out.results.get ⟨j, hj⟩) = false) ∧
      out.successful_predictions = [(⟨some txnA, some txnB⟩ : BPair)].length :=
  c1_amended_batch [⟨some txnA, some txnB⟩] (95/100) "t"
    (by norm_num) (by norm_num) (by decide)

end DecideRat

end MedSpa
